import Mathlib

/-!
Shallow embedding of `src/lambda/lambda_function.py` (aws-cost-control).

Timestamps are modelled as `Int` seconds since an arbitrary epoch; a Python
`timedelta` is the corresponding difference in seconds.  External AWS calls
are modelled by explicit oracle parameters describing the outcome of each call,
and every mutating call the code issues is recorded in an `ApiCall` trace.
Log output (`print`) is modelled as a list of strings built from the same
pieces the f-strings interpolate (quotation punctuation around interpolated
values is dropped); the Slack notification is the summary string produced by
`build_summary`.
-/

namespace CostControl

/-- One hour in seconds (`timedelta(hours=1)`). -/
def hourSec : Int := 3600

/-- One day in seconds (`timedelta(days=1)`). -/
def daySec : Int := 86400

/-- `timedelta(hours=24)` from `stop_old_ec2_instances`. -/
def runningThreshold : Int := 24 * hourSec

/-- `inactive_threshold = timedelta(days=60)` from `manage_iam_keys`. -/
def inactiveThreshold : Int := 60 * daySec

/-- `rotate_threshold = timedelta(days=30)` from `manage_iam_keys`. -/
def rotateThreshold : Int := 30 * daySec

/-- One IAM access key as seen by the loop in `process_user_keys`:
the `AccessKeyMetadata` fields plus the `LastUsedDate` returned by
`get_access_key_last_used` (absent when the key was never used). -/
structure KeyInfo where
  accessKeyId : String
  status : String
  createDate : Int
  lastUsed : Option Int
deriving Repr, DecidableEq

/-- The access key material returned by `iam.create_access_key`. -/
structure AccessKey where
  accessKeyId : String
  secretAccessKey : String
  createDate : Int
deriving Repr, DecidableEq

/-- The JSON payload assembled in `store_access_key_in_secrets_manager`
(`UserName`, `AccessKeyId`, `SecretAccessKey`, `CreateDate`), kept as a
record rather than a serialized string. -/
structure SecretPayload where
  userName : String
  accessKeyId : String
  secretAccessKey : String
  createDate : Int
deriving Repr, DecidableEq

/-- The mutating AWS calls the lambda can issue.  Listing calls
(`describe_instances`, `list_users`, `list_access_keys`,
`get_access_key_last_used`) are not mutations and are modelled as data /
oracles instead. -/
inductive ApiCall where
  | stopInstances (ids : List String)
  | updateKeyInactive (user : String) (keyId : String)
  | createAccessKey (user : String)
  | createSecret (name : String) (payload : SecretPayload)
  | putSecretValue (name : String) (payload : SecretPayload)
deriving Repr, DecidableEq

/-- The action `process_user_keys` takes on one key. -/
inductive Decision where
  | noAction
  | deactivate
  | rotate
deriving Repr, DecidableEq

/-- `inactivity_age` as computed in `process_user_keys`: `now - last_used`
when a `LastUsedDate` is present, else `now - create_date`. -/
def inactivityAge (now : Int) (k : KeyInfo) : Int :=
  match k.lastUsed with
  | some lu => now - lu
  | none => now - k.createDate

/-- The branch taken by the loop body of `process_user_keys` for a single
key: the `if inactivity_age > inactive_threshold` guard (with `continue`),
then the `if status == "Active" and key_age > rotate_threshold` guard. -/
def codeDecision (now inactTh rotTh : Int) (k : KeyInfo) : Decision :=
  if inactivityAge now k > inactTh then .deactivate
  else if k.status = "Active" ∧ now - k.createDate > rotTh then .rotate
  else .noAction

/-- Reference policy written from the spec text (§4.1): inactivity age from
`lastUsed`, or from `createdAt` when never used; `Deactivate` when it
exceeds 60 days, else `Rotate` when status is Active and the key is older
than 30 days, else `NoAction`. -/
def specDecision (now : Int) (k : KeyInfo) : Decision :=
  let age := match k.lastUsed with
    | some lu => now - lu
    | none => now - k.createDate
  if age > 60 * daySec then .deactivate
  else if k.status = "Active" ∧ now - k.createDate > 30 * daySec then .rotate
  else .noAction

/-- Python `str.lower()` (ASCII case folding, the relevant range here). -/
def pyLower (s : String) : String :=
  ⟨s.data.map Char.toLower⟩

/-- `DRY_RUN = os.getenv("DRY_RUN", "true").lower() == "true"` -/
def dryRunOf (env : Option String) : Bool :=
  pyLower (env.getD "true") == "true"

/-- Outcome of one `iam.update_access_key` call (the exception text when it
raises). -/
inductive UpdateRes where
  | ok
  | err (msg : String)
deriving Repr, DecidableEq

/-- Outcome of one `secretsmanager.create_secret` call. -/
inductive CreateSecretRes where
  | ok
  | resourceExists
  | otherError (msg : String)
deriving Repr, DecidableEq

/-- Outcome of one `secretsmanager.put_secret_value` call. -/
inductive PutSecretRes where
  | ok
  | err (msg : String)
deriving Repr, DecidableEq

/-- `deactivate_key`: always issues the `update_access_key` mutation and
swallows any exception, logging either success or the error.  Returns the
issued calls and the log lines. -/
def deactivateKey (user keyId : String) (res : UpdateRes) :
    List ApiCall × List String :=
  ([.updateKeyInactive user keyId],
    match res with
    | .ok =>
        ["    Deactivating key " ++ keyId ++ " for user " ++ user ++ "...",
         "    Key " ++ keyId ++ " deactivated."]
    | .err e =>
        ["    Deactivating key " ++ keyId ++ " for user " ++ user ++ "...",
         "    Error deactivating key " ++ keyId ++ " for user " ++ user ++ ": " ++ e])

/-- Secret name `f"{SECRET_NAME_PREFIX}{username}/access-key"`. -/
def secretNameFor (pre user : String) : String :=
  pre ++ user ++ "/access-key"

/-- `store_access_key_in_secrets_manager`: build the payload, try
`create_secret`; on `ResourceExistsException` fall back to
`put_secret_value`; swallow every failure.  Returns the issued calls and
log lines; it never raises (it has no failure result). -/
def storeAccessKey (pre user : String) (ak : AccessKey)
    (cRes : CreateSecretRes) (pRes : PutSecretRes) :
    List ApiCall × List String :=
  let name := secretNameFor pre user
  let payload : SecretPayload :=
    { userName := user, accessKeyId := ak.accessKeyId,
      secretAccessKey := ak.secretAccessKey, createDate := ak.createDate }
  let storing :=
    "    Storing new access key for " ++ user ++
      " in Secrets Manager secret " ++ name ++ "..."
  match cRes with
  | .ok =>
      ([.createSecret name payload],
       [storing, "    Created new secret " ++ name ++ "."])
  | .resourceExists =>
      match pRes with
      | .ok =>
          ([.createSecret name payload, .putSecretValue name payload],
           [storing,
            "    Secret " ++ name ++ " already exists, writing new version...",
            "    Updated secret " ++ name ++ " with new key version."])
      | .err e =>
          ([.createSecret name payload, .putSecretValue name payload],
           [storing,
            "    Secret " ++ name ++ " already exists, writing new version...",
            "    Error updating secret " ++ name ++ ": " ++ e])
  | .otherError e =>
      ([.createSecret name payload],
       [storing, "    Error creating secret " ++ name ++ ": " ++ e])

/-- `create_new_access_key`: issue `create_access_key`; on success log the
new key id (never the secret) and store it in Secrets Manager; on failure
log the error and return `none`.  Returns the created key (if any), the
issued calls, and the log lines. -/
def createNewAccessKey (pre user : String) (createRes : Option AccessKey)
    (cRes : CreateSecretRes) (pRes : PutSecretRes) :
    Option AccessKey × List ApiCall × List String :=
  match createRes with
  | some ak =>
      let st := storeAccessKey pre user ak cRes pRes
      (some ak,
       .createAccessKey user :: st.1,
       ("    Creating new access key for user " ++ user ++ "...")
         :: ("    Created new key " ++ ak.accessKeyId ++ " for user " ++ user ++ ".")
         :: st.2)
  | none =>
      (none, [.createAccessKey user],
       ["    Creating new access key for user " ++ user ++ "...",
        "    Error creating new access key for user " ++ user ++ "."])

/-- `created_new_key` in `process_user_keys`: `None`, the
`"DRY_RUN_PLACEHOLDER"` string, or a real created key. -/
inductive CreatedKey where
  | placeholder
  | real (ak : AccessKey)
deriving Repr, DecidableEq

/-- The loop state of `process_user_keys`: `created_new_key`, the two
counters, plus the traces the model adds (keys actually created, the
create-attempt index used to consult the oracle, issued calls, logs). -/
structure UserRun where
  createdNewKey : Option CreatedKey
  deactivatedCount : Nat
  rotatedCount : Nat
  createdKeys : List AccessKey
  attempts : Nat
  calls : List ApiCall
  logs : List String
deriving Repr

/-- Outcomes of the mutating calls made while processing one user:
`update_access_key` keyed by access key id, and the create/secret-store
calls keyed by create-attempt index. -/
structure UserOracle where
  upd : String → UpdateRes
  create : Nat → Option AccessKey
  csec : Nat → CreateSecretRes
  psec : Nat → PutSecretRes

/-- The log line for one key header in `process_user_keys`. -/
def keyHeaderLog (now : Int) (k : KeyInfo) : String :=
  "  Key " ++ k.accessKeyId ++ ": status=" ++ k.status ++
    ", create_date=" ++ toString k.createDate ++
    ", age=" ++ toString (now - k.createDate)

/-- The last-used log line in `process_user_keys`. -/
def lastUsedLog (now : Int) (k : KeyInfo) : String :=
  match k.lastUsed with
  | some lu =>
      "    Last used at " ++ toString lu ++ ", inactivity_age=" ++ toString (now - lu)
  | none =>
      "    Never used, treating inactivity_age=" ++ toString (now - k.createDate)

/-- One iteration of the `for key_meta in access_keys` loop of
`process_user_keys`. -/
def processOneKey (dryRun : Bool) (pre user : String) (now inactTh rotTh : Int)
    (o : UserOracle) (s : UserRun) (k : KeyInfo) : UserRun :=
  let s := { s with logs := s.logs ++ [keyHeaderLog now k, lastUsedLog now k] }
  if inactivityAge now k > inactTh then
    let s := { s with logs := s.logs ++
      ["    Key " ++ k.accessKeyId ++ " inactive >60 days, will deactivate."] }
    let s :=
      if !dryRun then
        let dc := deactivateKey user k.accessKeyId (o.upd k.accessKeyId)
        { s with calls := s.calls ++ dc.1, logs := s.logs ++ dc.2 }
      else
        { s with logs := s.logs ++
          ["    DRY_RUN: would deactivate inactive key " ++ k.accessKeyId ++ "."] }
    { s with deactivatedCount := s.deactivatedCount + 1 }
  else if k.status = "Active" ∧ now - k.createDate > rotTh then
    let s := { s with logs := s.logs ++
      ["    Key " ++ k.accessKeyId ++ " is active and older than 30 days, rotation needed"] }
    let s :=
      if s.createdNewKey.isNone then
        if !dryRun then
          let cr := createNewAccessKey pre user (o.create s.attempts)
            (o.csec s.attempts) (o.psec s.attempts)
          { s with attempts := s.attempts + 1,
                   createdNewKey := Option.map CreatedKey.real cr.1,
                   createdKeys := s.createdKeys ++ cr.1.toList,
                   calls := s.calls ++ cr.2.1,
                   logs := s.logs ++ cr.2.2 }
        else
          { s with createdNewKey := some .placeholder,
                   logs := s.logs ++
                     ["    DRY_RUN: would create a new access key for this user."] }
      else s
    let s :=
      if !dryRun then
        let dc := deactivateKey user k.accessKeyId (o.upd k.accessKeyId)
        { s with calls := s.calls ++ dc.1, logs := s.logs ++ dc.2 }
      else
        { s with logs := s.logs ++
          ["    DRY_RUN: would deactivate old key " ++ k.accessKeyId ++ " after rotation."] }
    { s with rotatedCount := s.rotatedCount + 1 }
  else s

/-- Initial loop state of `process_user_keys`. -/
def userRunInit : UserRun :=
  { createdNewKey := none, deactivatedCount := 0, rotatedCount := 0,
    createdKeys := [], attempts := 0, calls := [], logs := [] }

/-- `process_user_keys` given the already-listed keys (the
`list_access_keys` and `get_access_key_last_used` data). -/
def processUserKeys (dryRun : Bool) (pre user : String) (now inactTh rotTh : Int)
    (o : UserOracle) (keys : List KeyInfo) : UserRun :=
  if keys.isEmpty then
    { userRunInit with logs := ["User " ++ user ++ " has no access keys."] }
  else
    keys.foldl (processOneKey dryRun pre user now inactTh rotTh o) userRunInit

/-- The aggregate IAM counters of `manage_iam_keys`. -/
structure IamStats where
  usersProcessed : Nat
  keysDeactivated : Nat
  keysRotated : Nat
deriving Repr, DecidableEq

/-- `if IAM_ALLOWED_USERS and username not in IAM_ALLOWED_USERS: continue`
(an empty allow-set disables the filter). -/
def userAllowed (allowed : List String) (u : String) : Bool :=
  allowed.isEmpty || allowed.contains u

/-- Result of `manage_iam_keys`: counters plus the model traces (keys
actually created tagged by user, issued calls, logs). -/
structure IamOut where
  stats : IamStats
  created : List (String × AccessKey)
  calls : List ApiCall
  logs : List String
deriving Repr

/-- One iteration of the user loop in `manage_iam_keys`. -/
def processUserStep (dryRun : Bool) (pre : String) (allowed : List String)
    (now : Int) (keysOf : String → List KeyInfo) (oracleOf : String → UserOracle)
    (acc : IamOut) (u : String) : IamOut :=
  if userAllowed allowed u then
    let r := processUserKeys dryRun pre u now inactiveThreshold rotateThreshold
      (oracleOf u) (keysOf u)
    { stats := { usersProcessed := acc.stats.usersProcessed + 1,
                 keysDeactivated := acc.stats.keysDeactivated + r.deactivatedCount,
                 keysRotated := acc.stats.keysRotated + r.rotatedCount },
      created := acc.created ++ r.createdKeys.map (fun ak => (u, ak)),
      calls := acc.calls ++ r.calls,
      logs := acc.logs ++ ["Processing user: " ++ u] ++ r.logs }
  else
    { acc with logs := acc.logs ++
        ["Skipping user " ++ u ++ " (not in IAM_ALLOWED_USERS)."] }

/-- `manage_iam_keys` given the already-listed users. -/
def manageIamKeys (dryRun : Bool) (pre : String) (allowed : List String)
    (now : Int) (users : List String) (keysOf : String → List KeyInfo)
    (oracleOf : String → UserOracle) : IamOut :=
  users.foldl (processUserStep dryRun pre allowed now keysOf oracleOf)
    { stats := { usersProcessed := 0, keysDeactivated := 0, keysRotated := 0 },
      created := [], calls := [],
      logs := ["Checking IAM access keys..."] }

/-- One EC2 instance from the `describe_instances` pages, already filtered
by the API-side `instance-state-name = running` (and optional tag) filter. -/
structure Ec2Instance where
  instanceId : String
  launchTime : Int
deriving Repr, DecidableEq

/-- The EC2 counters of `stop_old_ec2_instances`. -/
structure Ec2Stats where
  instancesToStop : Nat
  instancesStopped : Nat
deriving Repr, DecidableEq

/-- Result of `stop_old_ec2_instances`: counters, issued calls, logs. -/
structure Ec2Out where
  stats : Ec2Stats
  calls : List ApiCall
  logs : List String
deriving Repr

/-- The stop-candidate ids: instances with `now - launch_time >
timedelta(hours=24)`. -/
def stopCandidates (now : Int) (instances : List Ec2Instance) : List String :=
  (instances.filter (fun i => now - i.launchTime > runningThreshold)).map
    (fun i => i.instanceId)

/-- `stop_old_ec2_instances` given the already-listed running instances:
collect candidates; if none, return zeros; under dry-run issue nothing;
otherwise issue one batched `stop_instances` call, counting all candidates
as stopped on success and none on failure (the exception is swallowed). -/
def stopOldEc2Instances (dryRun : Bool) (now : Int) (stopOk : Bool)
    (instances : List Ec2Instance) : Ec2Out :=
  let header := "Checking for EC2 instances running > 24 hours..."
  let perInstance := instances.map (fun i =>
    "Instance " ++ i.instanceId ++ " launched at " ++ toString i.launchTime ++
      ", running for " ++ toString (now - i.launchTime))
  let toStop := stopCandidates now instances
  if toStop.isEmpty then
    { stats := { instancesToStop := 0, instancesStopped := 0 },
      calls := [],
      logs := header :: perInstance ++ ["No instances to stop."] }
  else
    let announce := "Instances to stop (>24h): " ++ toString toStop
    if dryRun then
      { stats := { instancesToStop := toStop.length, instancesStopped := 0 },
        calls := [],
        logs := header :: perInstance ++
          [announce, "DRY_RUN enabled: not calling StopInstances."] }
    else if stopOk then
      { stats := { instancesToStop := toStop.length, instancesStopped := toStop.length },
        calls := [.stopInstances toStop],
        logs := header :: perInstance ++ [announce, "StopInstances response: ok"] }
    else
      { stats := { instancesToStop := toStop.length, instancesStopped := 0 },
        calls := [.stopInstances toStop],
        logs := header :: perInstance ++ [announce, "Error stopping instances."] }

/-- `build_summary`: the Slack text block, a pure function of the counters,
the timestamp and the dry-run flag. -/
def buildSummary (now : Int) (dryRun : Bool) (e : Ec2Stats) (i : IamStats) : String :=
  String.intercalate "\n"
    ["*Cost Guardian Lambda run*",
     "Time (UTC): `" ++ toString now ++ "`",
     "DRY_RUN: `" ++ (if dryRun then "True" else "False") ++ "`",
     "",
     "*EC2*",
     "- Candidates to stop (>24h): `" ++ toString e.instancesToStop ++ "`",
     "- Actually stopped: `" ++ toString e.instancesStopped ++ "`",
     "",
     "*IAM Access Keys*",
     "- Users processed: `" ++ toString i.usersProcessed ++ "`",
     "- Keys deactivated (>60d inactive): `" ++ toString i.keysDeactivated ++ "`",
     "- Keys rotated (>30d age): `" ++ toString i.keysRotated ++ "`"]

/-- Everything one invocation produces once the inventory listings have
succeeded: counters, created keys, the mutation-call trace, the logs and
the Slack summary text. -/
structure RunOut where
  ec2 : Ec2Stats
  iam : IamStats
  created : List (String × AccessKey)
  calls : List ApiCall
  logs : List String
  summary : String
deriving Repr

/-- The body of `lambda_handler` on successfully listed inventory data:
EC2 sweep, then IAM sweep, then summary (the Slack POST delivers
`summary`; its failure is swallowed and changes nothing else). -/
def runPure (dryRun : Bool) (pre : String) (allowed : List String) (now : Int)
    (stopOk : Bool) (instances : List Ec2Instance) (users : List String)
    (keysOf : String → List KeyInfo) (oracleOf : String → UserOracle) : RunOut :=
  let e := stopOldEc2Instances dryRun now stopOk instances
  let i := manageIamKeys dryRun pre allowed now users keysOf oracleOf
  let summary := buildSummary now dryRun e.stats i.stats
  { ec2 := e.stats, iam := i.stats, created := i.created,
    calls := e.calls ++ i.calls,
    logs := ("Lambda started at " ++ toString now ++ ", DRY_RUN=" ++
        (if dryRun then "True" else "False")) :: e.logs ++ i.logs ++
      ["Lambda run complete.", "Summary:\n" ++ summary],
    summary := summary }

/-- The `AccessKeyMetadata` entry returned by `iam.list_access_keys`. -/
structure KeyMeta where
  accessKeyId : String
  status : String
  createDate : Int
deriving Repr, DecidableEq

/-- Responses of the external inventory and mutation calls for one
invocation.  The four listing calls can raise (modelled as `Except`, the
error being the exception text); the Python code does not wrap them in
`try`, unlike the mutation calls whose outcomes feed the oracles. -/
structure World where
  instancesR : Except String (List Ec2Instance)
  usersR : Except String (List String)
  keysOfR : String → Except String (List KeyMeta)
  lastUsedR : String → Except String (Option Int)
  stopOk : Bool
  oracleOf : String → UserOracle

/-- Run a fallible call for each list element, stopping at the first
raised exception (the `for` loops of the source over listing results). -/
def exceptMapM {α β : Type} (g : α → Except String β) : List α → Except String (List β)
  | [] => .ok []
  | a :: t => do
      let b ← g a
      let bs ← exceptMapM g t
      pure (b :: bs)

/-- List the keys of one user and the last-used date of each key
(`list_access_keys` then `get_access_key_last_used` per key); any raised
exception propagates. -/
def fetchUserKeys (w : World) (u : String) : Except String (List KeyInfo) := do
  let ms ← w.keysOfR u
  exceptMapM (fun m => do
    let lu ← w.lastUsedR m.accessKeyId
    pure { accessKeyId := m.accessKeyId, status := m.status,
           createDate := m.createDate, lastUsed := lu }) ms

/-- The dict `lambda_handler` returns. -/
structure HandlerResult where
  status : String
deriving Repr, DecidableEq

/-- `lambda_handler`: run the EC2 sweep and the IAM sweep and return
`{"status": "ok"}`.  Listing failures are uncaught in the source and
propagate out of the handler, modelled as `Except.error`; the model hoists
the listing calls before the pure processing, which preserves both the
success behaviour and which runs raise (only the mutation effects already
performed before an uncaught exception are not tracked). -/
def lambdaHandler (dryRun : Bool) (pre : String) (allowed : List String)
    (now : Int) (w : World) : Except String HandlerResult :=
  match w.instancesR with
  | .error e => .error e
  | .ok instances =>
    match w.usersR with
    | .error e => .error e
    | .ok users =>
      match exceptMapM (fun u => (fetchUserKeys w u).map (fun ks => (u, ks)))
          (users.filter (userAllowed allowed)) with
      | .error e => .error e
      | .ok keyTable =>
        let keysOf := fun u =>
          ((keyTable.find? (fun p => p.1 == u)).map Prod.snd).getD []
        let _ := runPure dryRun pre allowed now w.stopOk instances users keysOf
          w.oracleOf
        .ok { status := "ok" }

/-- Number of keys of a list on which the loop decides `deactivate`. -/
def deactCount (now inactTh rotTh : Int) (keys : List KeyInfo) : Nat :=
  keys.countP (fun k => codeDecision now inactTh rotTh k == .deactivate)

/-- Number of keys of a list on which the loop decides `rotate`. -/
def rotCount (now inactTh rotTh : Int) (keys : List KeyInfo) : Nat :=
  keys.countP (fun k => codeDecision now inactTh rotTh k == .rotate)

/-- The IAM counters determined by the listing data alone: processed users
are the allow-filtered users, and the key counters sum the per-user
decision counts. -/
def iamStatsSpec (allowed : List String) (now : Int) (users : List String)
    (keysOf : String → List KeyInfo) : IamStats :=
  { usersProcessed := (users.filter (userAllowed allowed)).length,
    keysDeactivated :=
      ((users.filter (userAllowed allowed)).map
        (fun u => deactCount now inactiveThreshold rotateThreshold (keysOf u))).sum,
    keysRotated :=
      ((users.filter (userAllowed allowed)).map
        (fun u => rotCount now inactiveThreshold rotateThreshold (keysOf u))).sum }

/-- Erase the secret value from a stored payload. -/
def redactPayload (p : SecretPayload) : SecretPayload :=
  { p with secretAccessKey := "" }

/-- Erase secret values carried inside a mutation call. -/
def redactCall : ApiCall → ApiCall
  | .createSecret n p => .createSecret n (redactPayload p)
  | .putSecretValue n p => .putSecretValue n (redactPayload p)
  | c => c

/-- Erase the secret value of a created access key. -/
def redactKey (ak : AccessKey) : AccessKey :=
  { ak with secretAccessKey := "" }

/-- Erase the secret value held in `created_new_key`. -/
def redactCreated : CreatedKey → CreatedKey
  | .placeholder => .placeholder
  | .real ak => .real (redactKey ak)

/-- Erase every secret value held in the per-user loop state; the logs and
the counters are kept untouched. -/
def redactState (s : UserRun) : UserRun :=
  { s with createdNewKey := s.createdNewKey.map redactCreated,
           createdKeys := s.createdKeys.map redactKey,
           calls := s.calls.map redactCall }

/-- Erase the secret values an oracle would return for created keys. -/
def redactOracle (o : UserOracle) : UserOracle :=
  { o with create := fun n => (o.create n).map redactKey }

/-- Erase every secret value in an IAM-sweep result; counters and logs are
kept untouched. -/
def redactIamOut (x : IamOut) : IamOut :=
  { x with created := x.created.map (fun p => (p.1, redactKey p.2)),
           calls := x.calls.map redactCall }

/-- A sample stale active key: created at time 0, last used at day 99. -/
def sampleKeyStale : KeyInfo :=
  { accessKeyId := "AKIA1", status := "Active", createDate := 0,
    lastUsed := some (99 * daySec) }

/-- A sample freshly created access key returned by a successful
`create_access_key`. -/
def sampleNewKey : AccessKey :=
  { accessKeyId := "AKIANEW", secretAccessKey := "SECRET1", createDate := 100 * daySec }

/-- An oracle on which every mutation fails. -/
def oracleAllFail : UserOracle :=
  { upd := fun _ => .err "AccessDenied", create := fun _ => none,
    csec := fun _ => .otherError "boom", psec := fun _ => .err "boom" }

/-- An oracle on which every mutation succeeds. -/
def oracleAllOk : UserOracle :=
  { upd := fun _ => .ok, create := fun _ => some sampleNewKey,
    csec := fun _ => .ok, psec := fun _ => .ok }

/-- Two active keys of rotation age, recently used. -/
def sampleKeyRot1 : KeyInfo :=
  { accessKeyId := "AKIAR1", status := "Active", createDate := 0,
    lastUsed := some (35 * daySec) }

def sampleKeyRot2 : KeyInfo :=
  { accessKeyId := "AKIAR2", status := "Active", createDate := 0,
    lastUsed := some (36 * daySec) }

/-- An oracle whose first create call fails and later ones succeed. -/
def oracleFailThenOk : UserOracle :=
  { upd := fun _ => .ok,
    create := fun n => if n = 0 then none else some sampleNewKey,
    csec := fun _ => .ok, psec := fun _ => .ok }

/-- A world whose `describe_instances` listing raises. -/
def worldBadListing : World :=
  { instancesR := .error "ThrottlingException", usersR := .ok [],
    keysOfR := fun _ => .ok [], lastUsedR := fun _ => .ok none,
    stopOk := true, oracleOf := fun _ => oracleAllOk }

/-- The single `AccessKeyMetadata` entry of the all-ok sample world. -/
def sampleKeyMeta : KeyMeta :=
  { accessKeyId := "AKIA1", status := "Active", createDate := 0 }

/-- A world on which every listing call succeeds. -/
def worldOk : World :=
  { instancesR := .ok [{ instanceId := "i-1", launchTime := 0 }],
    usersR := .ok ["alice"],
    keysOfR := fun _ => .ok [sampleKeyMeta],
    lastUsedR := fun _ => .ok (some (99 * daySec)),
    stopOk := true, oracleOf := fun _ => oracleAllOk }

/-- Oracle creating a key whose secret value is TOPSECRETA. -/
def oracleSecretA : UserOracle :=
  { upd := fun _ => .ok,
    create := fun _ => some { accessKeyId := "AKIANEW", secretAccessKey := "TOPSECRETA", createDate := 0 },
    csec := fun _ => .ok, psec := fun _ => .ok }

/-- Oracle identical to `oracleSecretA` except for the secret value. -/
def oracleSecretB : UserOracle :=
  { upd := fun _ => .ok,
    create := fun _ => some { accessKeyId := "AKIANEW", secretAccessKey := "TOPSECRETB", createDate := 0 },
    csec := fun _ => .ok, psec := fun _ => .ok }

theorem processOneKey_deactivated (dryRun : Bool) (pre user : String)
    (now inactTh rotTh : Int) (o : UserOracle) (s : UserRun) (k : KeyInfo) :
    (processOneKey dryRun pre user now inactTh rotTh o s k).deactivatedCount =
      s.deactivatedCount +
        (if codeDecision now inactTh rotTh k = .deactivate then 1 else 0) := by
  unfold processOneKey codeDecision
  split_ifs <;> simp_all <;> (try split_ifs) <;> simp_all

theorem processOneKey_rotated (dryRun : Bool) (pre user : String)
    (now inactTh rotTh : Int) (o : UserOracle) (s : UserRun) (k : KeyInfo) :
    (processOneKey dryRun pre user now inactTh rotTh o s k).rotatedCount =
      s.rotatedCount +
        (if codeDecision now inactTh rotTh k = .rotate then 1 else 0) := by
  unfold processOneKey codeDecision
  split_ifs <;> simp_all <;> (try split_ifs) <;> simp_all

theorem processOneKey_dryRun_calls (pre user : String)
    (now inactTh rotTh : Int) (o : UserOracle) (s : UserRun) (k : KeyInfo) :
    (processOneKey true pre user now inactTh rotTh o s k).calls = s.calls := by
  unfold processOneKey
  split_ifs <;> simp_all <;> (try split_ifs) <;> simp_all

theorem processOneKey_dryRun_created (pre user : String)
    (now inactTh rotTh : Int) (o : UserOracle) (s : UserRun) (k : KeyInfo) :
    (processOneKey true pre user now inactTh rotTh o s k).createdKeys = s.createdKeys := by
  unfold processOneKey
  split_ifs <;> simp_all <;> (try split_ifs) <;> simp_all

theorem foldl_deactivated (dryRun : Bool) (pre user : String)
    (now inactTh rotTh : Int) (o : UserOracle) (keys : List KeyInfo) (s : UserRun) :
    (keys.foldl (processOneKey dryRun pre user now inactTh rotTh o) s).deactivatedCount =
      s.deactivatedCount + deactCount now inactTh rotTh keys := by
  induction keys generalizing s with
  | nil => simp [deactCount]
  | cons k ks ih =>
      rw [List.foldl_cons, ih]
      rw [processOneKey_deactivated]
      simp only [deactCount, List.countP_cons, beq_iff_eq]
      split <;> omega

theorem foldl_rotated (dryRun : Bool) (pre user : String)
    (now inactTh rotTh : Int) (o : UserOracle) (keys : List KeyInfo) (s : UserRun) :
    (keys.foldl (processOneKey dryRun pre user now inactTh rotTh o) s).rotatedCount =
      s.rotatedCount + rotCount now inactTh rotTh keys := by
  induction keys generalizing s with
  | nil => simp [rotCount]
  | cons k ks ih =>
      rw [List.foldl_cons, ih]
      rw [processOneKey_rotated]
      simp only [rotCount, List.countP_cons, beq_iff_eq]
      split <;> omega

theorem processUserKeys_deactivated (dryRun : Bool) (pre user : String)
    (now inactTh rotTh : Int) (o : UserOracle) (keys : List KeyInfo) :
    (processUserKeys dryRun pre user now inactTh rotTh o keys).deactivatedCount =
      deactCount now inactTh rotTh keys := by
  unfold processUserKeys
  split
  · simp_all [userRunInit, deactCount, List.isEmpty_iff]
  · rw [foldl_deactivated]
    simp [userRunInit]

theorem processUserKeys_rotated (dryRun : Bool) (pre user : String)
    (now inactTh rotTh : Int) (o : UserOracle) (keys : List KeyInfo) :
    (processUserKeys dryRun pre user now inactTh rotTh o keys).rotatedCount =
      rotCount now inactTh rotTh keys := by
  unfold processUserKeys
  split
  · simp_all [userRunInit, rotCount, List.isEmpty_iff]
  · rw [foldl_rotated]
    simp [userRunInit]

theorem foldl_dryRun_calls (pre user : String) (now inactTh rotTh : Int)
    (o : UserOracle) (keys : List KeyInfo) (s : UserRun) :
    (keys.foldl (processOneKey true pre user now inactTh rotTh o) s).calls = s.calls := by
  induction keys generalizing s with
  | nil => rfl
  | cons k ks ih => rw [List.foldl_cons, ih, processOneKey_dryRun_calls]

theorem processUserKeys_dryRun_calls (pre user : String) (now inactTh rotTh : Int)
    (o : UserOracle) (keys : List KeyInfo) :
    (processUserKeys true pre user now inactTh rotTh o keys).calls = [] := by
  unfold processUserKeys
  split
  · rfl
  · rw [foldl_dryRun_calls]
    rfl

theorem processOneKey_created_inv (dryRun : Bool) (pre user : String)
    (now inactTh rotTh : Int) (o : UserOracle) (s : UserRun) (k : KeyInfo)
    (h1 : s.createdKeys.length ≤ 1)
    (h2 : s.createdNewKey = none → s.createdKeys = []) :
    (processOneKey dryRun pre user now inactTh rotTh o s k).createdKeys.length ≤ 1 ∧
      ((processOneKey dryRun pre user now inactTh rotTh o s k).createdNewKey = none →
        (processOneKey dryRun pre user now inactTh rotTh o s k).createdKeys = []) := by
  unfold processOneKey
  rcases ho : o.create s.attempts with _ | ak <;>
    split_ifs <;> simp_all [createNewAccessKey] <;>
    (try split_ifs) <;> simp_all [createNewAccessKey]

theorem processOneKey_calls_mem (dryRun : Bool) (pre user : String)
    (now inactTh rotTh : Int) (o : UserOracle) (s : UserRun) (k : KeyInfo)
    (c : ApiCall) (hc : c ∈ s.calls) :
    c ∈ (processOneKey dryRun pre user now inactTh rotTh o s k).calls := by
  unfold processOneKey
  split_ifs <;> simp_all <;> (try split_ifs) <;> simp_all

theorem foldl_calls_mem (dryRun : Bool) (pre user : String)
    (now inactTh rotTh : Int) (o : UserOracle) (keys : List KeyInfo)
    (s : UserRun) (c : ApiCall) (hc : c ∈ s.calls) :
    c ∈ (keys.foldl (processOneKey dryRun pre user now inactTh rotTh o) s).calls := by
  induction keys generalizing s with
  | nil => exact hc
  | cons k ks ih =>
      exact ih _ (processOneKey_calls_mem dryRun pre user now inactTh rotTh o s k c hc)

theorem processOneKey_rotate_deact (pre user : String) (now inactTh rotTh : Int)
    (o : UserOracle) (s : UserRun) (k : KeyInfo)
    (hd : codeDecision now inactTh rotTh k = .rotate) :
    ApiCall.updateKeyInactive user k.accessKeyId ∈
      (processOneKey false pre user now inactTh rotTh o s k).calls := by
  unfold codeDecision at hd
  unfold processOneKey
  split_ifs <;> simp_all [deactivateKey] <;> (try split_ifs) <;> simp_all [deactivateKey]

theorem foldl_rotate_deact (pre user : String) (now inactTh rotTh : Int)
    (o : UserOracle) (keys : List KeyInfo) (s : UserRun) (k : KeyInfo)
    (hk : k ∈ keys) (hd : codeDecision now inactTh rotTh k = .rotate) :
    ApiCall.updateKeyInactive user k.accessKeyId ∈
      (keys.foldl (processOneKey false pre user now inactTh rotTh o) s).calls := by
  induction keys generalizing s with
  | nil => cases hk
  | cons x xs ih =>
      rcases List.mem_cons.mp hk with h | h
      · subst h
        exact foldl_calls_mem false pre user now inactTh rotTh o xs _ _
          (processOneKey_rotate_deact pre user now inactTh rotTh o s k hd)
      · exact ih _ h

theorem processUserKeys_rotate_deact (pre user : String) (now inactTh rotTh : Int)
    (o : UserOracle) (keys : List KeyInfo) (k : KeyInfo)
    (hk : k ∈ keys) (hd : codeDecision now inactTh rotTh k = .rotate) :
    ApiCall.updateKeyInactive user k.accessKeyId ∈
      (processUserKeys false pre user now inactTh rotTh o keys).calls := by
  unfold processUserKeys
  split
  · simp_all [List.isEmpty_iff]
  · exact foldl_rotate_deact pre user now inactTh rotTh o keys userRunInit k hk hd

theorem foldl_created_inv (dryRun : Bool) (pre user : String)
    (now inactTh rotTh : Int) (o : UserOracle) (keys : List KeyInfo) (s : UserRun)
    (h1 : s.createdKeys.length ≤ 1)
    (h2 : s.createdNewKey = none → s.createdKeys = []) :
    (keys.foldl (processOneKey dryRun pre user now inactTh rotTh o) s).createdKeys.length ≤ 1 := by
  induction keys generalizing s with
  | nil => exact h1
  | cons k ks ih =>
      obtain ⟨a, b⟩ :=
        processOneKey_created_inv dryRun pre user now inactTh rotTh o s k h1 h2
      exact ih _ a b

theorem processUserKeys_created_le_one (dryRun : Bool) (pre user : String)
    (now inactTh rotTh : Int) (o : UserOracle) (keys : List KeyInfo) :
    (processUserKeys dryRun pre user now inactTh rotTh o keys).createdKeys.length ≤ 1 := by
  unfold processUserKeys
  split
  · simp [userRunInit]
  · exact foldl_created_inv dryRun pre user now inactTh rotTh o keys userRunInit
      (by simp [userRunInit]) (by simp [userRunInit])

theorem tag_filter_eq (l : List AccessKey) (u u₀ : String) (h : u = u₀) :
    ((l.map (fun ak => (u, ak))).filter (fun p => p.1 == u₀)) =
      l.map (fun ak => (u, ak)) := by
  induction l with
  | nil => rfl
  | cons a t ih => simp_all [List.filter_cons]

theorem tag_filter_ne (l : List AccessKey) (u u₀ : String) (h : u ≠ u₀) :
    ((l.map (fun ak => (u, ak))).filter (fun p => p.1 == u₀)) = [] := by
  induction l with
  | nil => rfl
  | cons a t ih => simp_all [List.filter_cons]

theorem manage_fold_created_bound (dryRun : Bool) (pre : String)
    (allowed : List String) (now : Int) (keysOf : String → List KeyInfo)
    (oracleOf : String → UserOracle) (users : List String) (acc : IamOut)
    (u₀ : String) (hnd : users.Nodup)
    (hb : (acc.created.filter (fun p => p.1 == u₀)).length ≤ 1)
    (hz : u₀ ∈ users → acc.created.filter (fun p => p.1 == u₀) = []) :
    (((users.foldl (processUserStep dryRun pre allowed now keysOf oracleOf) acc).created).filter
      (fun p => p.1 == u₀)).length ≤ 1 := by
  induction users generalizing acc with
  | nil => exact hb
  | cons u us ih =>
      rw [List.foldl_cons]
      rcases List.nodup_cons.mp hnd with ⟨hu, hnd₂⟩
      have hstep : (processUserStep dryRun pre allowed now keysOf oracleOf acc u).created =
          acc.created ++
            (if userAllowed allowed u then
              ((processUserKeys dryRun pre u now inactiveThreshold rotateThreshold
                (oracleOf u) (keysOf u)).createdKeys).map (fun ak => (u, ak))
            else []) := by
        unfold processUserStep
        split_ifs <;> simp
      refine ih _ hnd₂ ?_ ?_
      · rw [hstep, List.filter_append, List.length_append]
        by_cases hcase : u = u₀
        · rw [hz (by simp [hcase])]
          split_ifs with ha
          · rw [tag_filter_eq _ _ _ hcase]
            simpa using processUserKeys_created_le_one dryRun pre u now
              inactiveThreshold rotateThreshold (oracleOf u) (keysOf u)
          · simp
        · split_ifs with ha
          · rw [tag_filter_ne _ _ _ hcase]
            simpa using hb
          · simpa using hb
      · intro hmem
        have hne : u ≠ u₀ := by
          rintro rfl
          exact hu hmem
        rw [hstep, List.filter_append]
        rw [hz (List.mem_cons_of_mem _ hmem)]
        split_ifs with ha
        · rw [tag_filter_ne _ _ _ hne]
          rfl
        · simp

theorem manage_fold_stats (dryRun : Bool) (pre : String) (allowed : List String)
    (now : Int) (keysOf : String → List KeyInfo) (oracleOf : String → UserOracle)
    (users : List String) (acc : IamOut) :
    (users.foldl (processUserStep dryRun pre allowed now keysOf oracleOf) acc).stats =
      { usersProcessed := acc.stats.usersProcessed +
          (iamStatsSpec allowed now users keysOf).usersProcessed,
        keysDeactivated := acc.stats.keysDeactivated +
          (iamStatsSpec allowed now users keysOf).keysDeactivated,
        keysRotated := acc.stats.keysRotated +
          (iamStatsSpec allowed now users keysOf).keysRotated } := by
  induction users generalizing acc with
  | nil => simp [iamStatsSpec]
  | cons u us ih =>
      rw [List.foldl_cons, ih]
      unfold processUserStep iamStatsSpec
      split_ifs with ha <;>
        simp_all [List.filter_cons, processUserKeys_deactivated,
          processUserKeys_rotated, IamStats.mk.injEq] <;>
        omega

theorem manageIamKeys_stats (dryRun : Bool) (pre : String) (allowed : List String)
    (now : Int) (users : List String) (keysOf : String → List KeyInfo)
    (oracleOf : String → UserOracle) :
    (manageIamKeys dryRun pre allowed now users keysOf oracleOf).stats =
      iamStatsSpec allowed now users keysOf := by
  unfold manageIamKeys
  rw [manage_fold_stats]
  simp [iamStatsSpec]

theorem manage_fold_dryRun_calls (pre : String) (allowed : List String)
    (now : Int) (keysOf : String → List KeyInfo) (oracleOf : String → UserOracle)
    (users : List String) (acc : IamOut) :
    (users.foldl (processUserStep true pre allowed now keysOf oracleOf) acc).calls =
      acc.calls := by
  induction users generalizing acc with
  | nil => rfl
  | cons u us ih =>
      rw [List.foldl_cons, ih]
      unfold processUserStep
      split_ifs <;> simp [processUserKeys_dryRun_calls]

theorem manageIamKeys_dryRun_calls (pre : String) (allowed : List String)
    (now : Int) (users : List String) (keysOf : String → List KeyInfo)
    (oracleOf : String → UserOracle) :
    (manageIamKeys true pre allowed now users keysOf oracleOf).calls = [] := by
  unfold manageIamKeys
  rw [manage_fold_dryRun_calls]

theorem stopOldEc2Instances_toStop (dryRun : Bool) (now : Int) (stopOk : Bool)
    (instances : List Ec2Instance) :
    (stopOldEc2Instances dryRun now stopOk instances).stats.instancesToStop =
      (stopCandidates now instances).length := by
  unfold stopOldEc2Instances
  split_ifs <;> simp_all <;> (try split_ifs) <;> simp_all [List.isEmpty_iff] <;> (try split_ifs) <;> simp_all

theorem stopOldEc2Instances_dryRun_calls (now : Int) (stopOk : Bool)
    (instances : List Ec2Instance) :
    (stopOldEc2Instances true now stopOk instances).calls = [] := by
  unfold stopOldEc2Instances
  split_ifs <;> simp_all <;> (try split_ifs) <;> simp_all

theorem stopOldEc2Instances_calls (now : Int) (stopOk : Bool)
    (instances : List Ec2Instance)
    (h : stopCandidates now instances ≠ []) :
    (stopOldEc2Instances false now stopOk instances).calls =
      [.stopInstances (stopCandidates now instances)] := by
  unfold stopOldEc2Instances
  split_ifs with h1 h2 <;> simp_all

theorem stopOldEc2Instances_stopped_ok (now : Int) (instances : List Ec2Instance)
    (h : stopCandidates now instances ≠ []) :
    (stopOldEc2Instances false now true instances).stats.instancesStopped =
      (stopCandidates now instances).length := by
  unfold stopOldEc2Instances
  split_ifs with h1 <;> simp_all

theorem stopOldEc2Instances_stopped_fail (dryRun : Bool) (now : Int)
    (instances : List Ec2Instance) :
    (stopOldEc2Instances dryRun now false instances).stats.instancesStopped = 0 := by
  unfold stopOldEc2Instances
  split_ifs <;> simp_all <;> (try split_ifs) <;> simp_all

theorem exceptMapM_ok {α β : Type} (g : α → Except String β) (l : List α)
    (h : ∀ a ∈ l, ∃ b, g a = .ok b) : ∃ bs, exceptMapM g l = .ok bs := by
  induction l with
  | nil => exact ⟨[], rfl⟩
  | cons a t ih =>
      obtain ⟨b, hb⟩ := h a (List.mem_cons_self a t)
      obtain ⟨bs, hbs⟩ := ih (fun x hx => h x (List.mem_cons_of_mem _ hx))
      refine ⟨b :: bs, ?_⟩
      unfold exceptMapM
      rw [hb, hbs]
      rfl

/-- C4 (amended): whenever the inventory-listing calls succeed, the handler
returns the ok status object for every outcome of the mutation and
notification calls (the listing-failure case is settled by the
counterexample: it propagates). -/
theorem C4_handler_ok_when_listings_succeed (dryRun : Bool) (pre : String) (allowed : List String)
    (now : Int) (w : World) (ins : List Ec2Instance) (us : List String)
    (hi : w.instancesR = .ok ins) (hu : w.usersR = .ok us)
    (hk : ∀ u ∈ us.filter (userAllowed allowed), ∃ ks, fetchUserKeys w u = .ok ks) :
    lambdaHandler dryRun pre allowed now w = .ok { status := "ok" } := by
  unfold lambdaHandler
  rw [hi, hu]
  obtain ⟨tbl, htbl⟩ := exceptMapM_ok
    (fun u => (fetchUserKeys w u).map (fun ks => (u, ks)))
    (us.filter (userAllowed allowed))
    (fun u hu₂ => by
      obtain ⟨ks, hks⟩ := hk u hu₂
      exact ⟨(u, ks), by simp [hks, Except.map]⟩)
  show (match exceptMapM (fun u => (fetchUserKeys w u).map (fun ks => (u, ks)))
      (us.filter (userAllowed allowed)) with
    | .error e => (.error e : Except String HandlerResult)
    | .ok _ => .ok { status := "ok" }) = .ok { status := "ok" }
  rw [htbl]

theorem storeAccessKey_redact (pre user : String) (ak : AccessKey)
    (cRes : CreateSecretRes) (pRes : PutSecretRes) :
    storeAccessKey pre user (redactKey ak) cRes pRes =
      ((storeAccessKey pre user ak cRes pRes).1.map redactCall,
       (storeAccessKey pre user ak cRes pRes).2) := by
  cases cRes <;> cases pRes <;>
    simp [storeAccessKey, redactKey, redactCall, redactPayload]

theorem createNewAccessKey_redact (pre user : String) (r : Option AccessKey)
    (cRes : CreateSecretRes) (pRes : PutSecretRes) :
    createNewAccessKey pre user (r.map redactKey) cRes pRes =
      ((createNewAccessKey pre user r cRes pRes).1.map redactKey,
       (createNewAccessKey pre user r cRes pRes).2.1.map redactCall,
       (createNewAccessKey pre user r cRes pRes).2.2) := by
  cases r with
  | none => simp [createNewAccessKey, redactCall]
  | some ak =>
      simp [createNewAccessKey, storeAccessKey_redact, redactCall]
      simp [redactKey]

theorem real_redact_comp :
    CreatedKey.real ∘ redactKey = redactCreated ∘ CreatedKey.real :=
  funext fun _ => rfl

theorem optmap_real_redact (x : Option AccessKey) :
    Option.map CreatedKey.real (x.map redactKey) =
      (x.map CreatedKey.real).map redactCreated := by
  cases x <;> rfl

theorem opt_toList_map (x : Option AccessKey) :
    (x.map redactKey).toList = x.toList.map redactKey := by
  cases x <;> rfl

theorem processOneKey_redact (dryRun : Bool) (pre user : String)
    (now inactTh rotTh : Int) (o : UserOracle) (s : UserRun) (k : KeyInfo) :
    processOneKey dryRun pre user now inactTh rotTh (redactOracle o) (redactState s) k =
      redactState (processOneKey dryRun pre user now inactTh rotTh o s k) := by
  unfold processOneKey
  split_ifs <;>
    (try simp_all [redactState, redactOracle, Option.isNone_iff_eq_none,
      deactivateKey, redactCall]) <;>
    (try split_ifs) <;>
    (try simp_all [createNewAccessKey_redact, optmap_real_redact, opt_toList_map,
      real_redact_comp, redactCreated, deactivateKey, redactCall, UserRun.mk.injEq])

theorem foldl_redact (dryRun : Bool) (pre user : String) (now inactTh rotTh : Int)
    (o : UserOracle) (keys : List KeyInfo) (s : UserRun) :
    keys.foldl (processOneKey dryRun pre user now inactTh rotTh (redactOracle o))
        (redactState s) =
      redactState (keys.foldl (processOneKey dryRun pre user now inactTh rotTh o) s) := by
  induction keys generalizing s with
  | nil => rfl
  | cons k ks ih =>
      rw [List.foldl_cons, List.foldl_cons, processOneKey_redact]
      exact ih _

theorem processUserKeys_redact (dryRun : Bool) (pre user : String)
    (now inactTh rotTh : Int) (o : UserOracle) (keys : List KeyInfo) :
    processUserKeys dryRun pre user now inactTh rotTh (redactOracle o) keys =
      redactState (processUserKeys dryRun pre user now inactTh rotTh o keys) := by
  unfold processUserKeys
  split
  · rfl
  · have hinit : redactState userRunInit = userRunInit := rfl
    rw [← hinit, foldl_redact, hinit]

theorem processUserStep_redact (dryRun : Bool) (pre : String)
    (allowed : List String) (now : Int) (keysOf : String → List KeyInfo)
    (oracleOf : String → UserOracle) (acc : IamOut) (u : String) :
    processUserStep dryRun pre allowed now keysOf
        (fun v => redactOracle (oracleOf v)) (redactIamOut acc) u =
      redactIamOut (processUserStep dryRun pre allowed now keysOf oracleOf acc u) := by
  unfold processUserStep
  split_ifs <;>
    simp [redactIamOut, processUserKeys_redact, redactState, IamOut.mk.injEq]

theorem manage_fold_redact (dryRun : Bool) (pre : String) (allowed : List String)
    (now : Int) (keysOf : String → List KeyInfo) (oracleOf : String → UserOracle)
    (users : List String) (acc : IamOut) :
    users.foldl (processUserStep dryRun pre allowed now keysOf
        (fun v => redactOracle (oracleOf v))) (redactIamOut acc) =
      redactIamOut (users.foldl (processUserStep dryRun pre allowed now keysOf oracleOf) acc) := by
  induction users generalizing acc with
  | nil => rfl
  | cons u us ih =>
      rw [List.foldl_cons, List.foldl_cons, processUserStep_redact]
      exact ih _

theorem manageIamKeys_redact (dryRun : Bool) (pre : String) (allowed : List String)
    (now : Int) (users : List String) (keysOf : String → List KeyInfo)
    (oracleOf : String → UserOracle) :
    manageIamKeys dryRun pre allowed now users keysOf
        (fun v => redactOracle (oracleOf v)) =
      redactIamOut (manageIamKeys dryRun pre allowed now users keysOf oracleOf) := by
  unfold manageIamKeys
  have hinit : redactIamOut
      { stats := { usersProcessed := 0, keysDeactivated := 0, keysRotated := 0 },
        created := [], calls := [],
        logs := ["Checking IAM access keys..."] } =
      { stats := { usersProcessed := 0, keysDeactivated := 0, keysRotated := 0 },
        created := [], calls := [],
        logs := ["Checking IAM access keys..."] } := rfl
  rw [← hinit, manage_fold_redact, hinit]

theorem runPure_redact (dryRun : Bool) (pre : String) (allowed : List String)
    (now : Int) (stopOk : Bool) (instances : List Ec2Instance)
    (users : List String) (keysOf : String → List KeyInfo)
    (oracleOf : String → UserOracle) :
    (runPure dryRun pre allowed now stopOk instances users keysOf
        (fun v => redactOracle (oracleOf v))).logs =
      (runPure dryRun pre allowed now stopOk instances users keysOf oracleOf).logs ∧
    (runPure dryRun pre allowed now stopOk instances users keysOf
        (fun v => redactOracle (oracleOf v))).summary =
      (runPure dryRun pre allowed now stopOk instances users keysOf oracleOf).summary := by
  unfold runPure
  rw [manageIamKeys_redact]
  simp [redactIamOut]

theorem codeDecision_eq_spec (now : Int) (k : KeyInfo) :
    codeDecision now inactiveThreshold rotateThreshold k = specDecision now k := rfl

/-- C1: the per-credential decision taken by the loop equals the spec
reference policy, and the loop counters count exactly the keys the
reference policy marks deactivate resp. rotate. -/
theorem C1_policy_decision_matches_spec (now : Int) (k : KeyInfo) (dryRun : Bool)
    (pre user : String) (o : UserOracle) (keys : List KeyInfo) :
    codeDecision now inactiveThreshold rotateThreshold k = specDecision now k ∧
    (processUserKeys dryRun pre user now inactiveThreshold rotateThreshold o keys).deactivatedCount =
      keys.countP (fun k => specDecision now k == .deactivate) ∧
    (processUserKeys dryRun pre user now inactiveThreshold rotateThreshold o keys).rotatedCount =
      keys.countP (fun k => specDecision now k == .rotate) := by
  refine ⟨rfl, ?_, ?_⟩
  · rw [processUserKeys_deactivated]
    unfold deactCount
    exact List.countP_congr (fun a _ => by rw [codeDecision_eq_spec])
  · rw [processUserKeys_rotated]
    unfold rotCount
    exact List.countP_congr (fun a _ => by rw [codeDecision_eq_spec])

/-- C2: under dry-run no mutating call is issued, and the three counters
named by the spec equal those of a non-dry-run run in which every mutation
succeeds. -/
theorem C2_dry_run_no_mutations (pre : String) (allowed : List String)
    (now : Int) (stopOk : Bool) (instances : List Ec2Instance)
    (users : List String) (keysOf : String → List KeyInfo)
    (oracleOf oracleOk : String → UserOracle)
    (hupd : ∀ u kid, (oracleOk u).upd kid = .ok)
    (hcreate : ∀ u n, ∃ ak, (oracleOk u).create n = some ak) :
    (runPure true pre allowed now stopOk instances users keysOf oracleOf).calls = [] ∧
    (runPure true pre allowed now stopOk instances users keysOf oracleOf).ec2.instancesToStop =
      (runPure false pre allowed now true instances users keysOf oracleOk).ec2.instancesToStop ∧
    (runPure true pre allowed now stopOk instances users keysOf oracleOf).iam.keysDeactivated =
      (runPure false pre allowed now true instances users keysOf oracleOk).iam.keysDeactivated ∧
    (runPure true pre allowed now stopOk instances users keysOf oracleOf).iam.keysRotated =
      (runPure false pre allowed now true instances users keysOf oracleOk).iam.keysRotated := by
  refine ⟨?_, ?_, ?_, ?_⟩
  · show (stopOldEc2Instances true now stopOk instances).calls ++
      (manageIamKeys true pre allowed now users keysOf oracleOf).calls = []
    rw [stopOldEc2Instances_dryRun_calls, manageIamKeys_dryRun_calls]
    rfl
  · show (stopOldEc2Instances true now stopOk instances).stats.instancesToStop =
      (stopOldEc2Instances false now true instances).stats.instancesToStop
    rw [stopOldEc2Instances_toStop, stopOldEc2Instances_toStop]
  · show (manageIamKeys true pre allowed now users keysOf oracleOf).stats.keysDeactivated =
      (manageIamKeys false pre allowed now users keysOf oracleOk).stats.keysDeactivated
    rw [manageIamKeys_stats, manageIamKeys_stats]
  · show (manageIamKeys true pre allowed now users keysOf oracleOf).stats.keysRotated =
      (manageIamKeys false pre allowed now users keysOf oracleOk).stats.keysRotated
    rw [manageIamKeys_stats, manageIamKeys_stats]

/-- C2 witness at a concrete run. -/
theorem C2_dry_run_no_mutations_witness :
    (runPure true "iam/user/" [] (100 * daySec) true
        [{ instanceId := "i-1", launchTime := 0 }] ["alice"]
        (fun _ => [sampleKeyStale]) (fun _ => oracleAllFail)).calls = [] := by
  have h := C2_dry_run_no_mutations "iam/user/" [] (100 * daySec) true
    [{ instanceId := "i-1", launchTime := 0 }] ["alice"]
    (fun _ => [sampleKeyStale]) (fun _ => oracleAllFail) (fun _ => oracleAllOk)
    (fun _ _ => rfl)
    (fun _ _ => ⟨sampleNewKey, rfl⟩)
  exact h.1

/-- C3: at most one new credential is created per identity per run — both
at the whole-run level (entries tagged with a given user among the actually
created keys) and at the per-user level, for every oracle, including ones
whose create calls fail. -/
theorem C3_at_most_one_created_per_user (dryRun : Bool) (pre : String)
    (allowed : List String) (now : Int) (users : List String)
    (keysOf : String → List KeyInfo) (oracleOf : String → UserOracle)
    (u₀ : String) (hnd : users.Nodup) :
    ((manageIamKeys dryRun pre allowed now users keysOf oracleOf).created.filter
        (fun p => p.1 == u₀)).length ≤ 1 ∧
    (∀ user o keys, (processUserKeys dryRun pre user now inactiveThreshold
        rotateThreshold o keys).createdKeys.length ≤ 1) := by
  constructor
  · unfold manageIamKeys
    exact manage_fold_created_bound dryRun pre allowed now keysOf oracleOf users _
      u₀ hnd (by simp) (fun _ => by simp)
  · intro user o keys
    exact processUserKeys_created_le_one dryRun pre user now inactiveThreshold
      rotateThreshold o keys

/-- C3 witness: a user with two rotation-due keys and a first create call
that fails. -/
theorem C3_at_most_one_created_per_user_witness :
    ((manageIamKeys false "iam/user/" [] (40 * daySec) ["alice"]
        (fun _ => [sampleKeyRot1, sampleKeyRot2])
        (fun _ => oracleFailThenOk)).created.filter
        (fun p => p.1 == "alice")).length ≤ 1 := by
  have h := C3_at_most_one_created_per_user false "iam/user/" [] (40 * daySec)
    ["alice"] (fun _ => [sampleKeyRot1, sampleKeyRot2]) (fun _ => oracleFailThenOk)
    "alice" (by simp)
  exact h.1

/-- C4 counterexample: a failed inventory-listing call propagates out of
the handler, which therefore does not return the ok status object. -/
theorem C4_counterexample_listing_failure :
    lambdaHandler true "iam/user/" [] 0 worldBadListing = .error "ThrottlingException" ∧
    lambdaHandler true "iam/user/" [] 0 worldBadListing ≠ .ok { status := "ok" } := by
  constructor
  · rfl
  · intro h
    cases h

/-- C4 witness: with all listings succeeding the handler returns ok. -/
theorem C4_handler_ok_witness :
    lambdaHandler false "iam/user/" [] (100 * daySec) worldOk =
      .ok { status := "ok" } := by
  exact C4_handler_ok_when_listings_succeed false "iam/user/" [] (100 * daySec)
    worldOk [{ instanceId := "i-1", launchTime := 0 }] ["alice"] rfl rfl
    (fun u hu => ⟨[sampleKeyStale], rfl⟩)

/-- C5 counterexample: a key whose deactivation call fails is nonetheless
counted in `keys_deactivated` (the source increments the counter whether or
not `update_access_key` succeeded), so failing items are not counted as
not-succeeded. -/
theorem C5_counterexample_failed_deactivation_counted :
    (processUserKeys false "iam/user/" "alice" (100 * daySec) inactiveThreshold
        rotateThreshold oracleAllFail
        [{ accessKeyId := "AKIAOLD", status := "Active", createDate := 0,
           lastUsed := none }]).deactivatedCount = 1 ∧
    (processUserKeys false "iam/user/" "alice" (100 * daySec) inactiveThreshold
        rotateThreshold oracleAllFail
        [{ accessKeyId := "AKIAOLD", status := "Active", createDate := 0,
           lastUsed := none }]).calls =
      [.updateKeyInactive "alice" "AKIAOLD"] ∧
    oracleAllFail.upd "AKIAOLD" = .err "AccessDenied" := by
  refine ⟨?_, ?_, rfl⟩ <;> rfl

/-- C5 amended: per-item mutation failures are caught and the run
continues — the IAM counters equal the pure decision counts for every
oracle (so a failed deactivation or rotation is still counted as
performed), while the batched instance stop is the one counter that
records zero on failure. -/
theorem C5_mutation_failures_caught_processing_continues (dryRun : Bool)
    (pre : String) (allowed : List String) (now : Int) (stopOk : Bool)
    (instances : List Ec2Instance) (users : List String)
    (keysOf : String → List KeyInfo) (oracleOf : String → UserOracle) :
    (runPure dryRun pre allowed now stopOk instances users keysOf oracleOf).iam =
      iamStatsSpec allowed now users keysOf ∧
    (runPure false pre allowed now false instances users keysOf oracleOf).ec2.instancesStopped = 0 ∧
    (runPure false pre allowed now false instances users keysOf oracleOf).ec2.instancesToStop =
      (stopCandidates now instances).length := by
  refine ⟨?_, ?_, ?_⟩
  · show (manageIamKeys dryRun pre allowed now users keysOf oracleOf).stats = _
    exact manageIamKeys_stats dryRun pre allowed now users keysOf oracleOf
  · show (stopOldEc2Instances false now false instances).stats.instancesStopped = 0
    exact stopOldEc2Instances_stopped_fail false now instances
  · show (stopOldEc2Instances false now false instances).stats.instancesToStop = _
    exact stopOldEc2Instances_toStop false now false instances

/-- C6: when a key requires rotation, the old key is deactivated and the
rotated counter incremented for every create oracle, including ones whose
create calls all fail: deactivation is not conditional on a successful
creation. -/
theorem C6_old_key_deactivated_even_if_create_fails (pre user : String)
    (now : Int) (o : UserOracle) (keys : List KeyInfo) (k : KeyInfo)
    (hk : k ∈ keys) (hrot : specDecision now k = .rotate) :
    ApiCall.updateKeyInactive user k.accessKeyId ∈
      (processUserKeys false pre user now inactiveThreshold rotateThreshold o keys).calls ∧
    1 ≤ (processUserKeys false pre user now inactiveThreshold rotateThreshold o keys).rotatedCount := by
  have hcode : codeDecision now inactiveThreshold rotateThreshold k = .rotate := by
    rw [codeDecision_eq_spec]
    exact hrot
  constructor
  · exact processUserKeys_rotate_deact pre user now inactiveThreshold
      rotateThreshold o keys k hk hcode
  · rw [processUserKeys_rotated]
    have : 0 < rotCount now inactiveThreshold rotateThreshold keys := by
      unfold rotCount
      rw [List.countP_pos]
      exact ⟨k, hk, by simp [hcode]⟩
    omega

/-- C6 witness: one rotation-due key, an always-failing create oracle. -/
theorem C6_old_key_deactivated_even_if_create_fails_witness :
    ApiCall.updateKeyInactive "alice" "AKIAR1" ∈
      (processUserKeys false "iam/user/" "alice" (40 * daySec) inactiveThreshold
        rotateThreshold oracleAllFail [sampleKeyRot1]).calls := by
  have h := C6_old_key_deactivated_even_if_create_fails "iam/user/" "alice"
    (40 * daySec) oracleAllFail [sampleKeyRot1] sampleKeyRot1
    (List.mem_singleton.mpr rfl) (by decide)
  exact h.1

/-- C7: the run log and the notification summary are independent of the
secret values of created keys (two runs whose create oracles agree up to
the secret value produce identical logs and summary), while the payload
written to the secret store does carry the secret value. -/
theorem C7_secret_never_logged_or_notified (dryRun : Bool) (pre : String)
    (allowed : List String) (now : Int) (stopOk : Bool)
    (instances : List Ec2Instance) (users : List String)
    (keysOf : String → List KeyInfo) (o₁ o₂ : String → UserOracle)
    (h : ∀ u, redactOracle (o₁ u) = redactOracle (o₂ u)) :
    (runPure dryRun pre allowed now stopOk instances users keysOf o₁).logs =
      (runPure dryRun pre allowed now stopOk instances users keysOf o₂).logs ∧
    (runPure dryRun pre allowed now stopOk instances users keysOf o₁).summary =
      (runPure dryRun pre allowed now stopOk instances users keysOf o₂).summary ∧
    (∀ user ak cRes pRes, (storeAccessKey pre user ak cRes pRes).1.head? =
      some (.createSecret (secretNameFor pre user)
        { userName := user, accessKeyId := ak.accessKeyId,
          secretAccessKey := ak.secretAccessKey, createDate := ak.createDate })) := by
  have hfun : (fun v => redactOracle (o₁ v)) = (fun v => redactOracle (o₂ v)) :=
    funext h
  have h₁ := runPure_redact dryRun pre allowed now stopOk instances users keysOf o₁
  have h₂ := runPure_redact dryRun pre allowed now stopOk instances users keysOf o₂
  refine ⟨?_, ?_, ?_⟩
  · rw [← h₁.1, hfun, h₂.1]
  · rw [← h₁.2, hfun, h₂.2]
  · intro user ak cRes pRes
    cases cRes <;> cases pRes <;> rfl

/-- C7 witness: two concrete runs differing only in the created secret. -/
theorem C7_secret_never_logged_or_notified_witness :
    (runPure false "iam/user/" [] (40 * daySec) true []
        ["alice"] (fun _ => [sampleKeyRot1]) (fun _ => oracleSecretA)).logs =
      (runPure false "iam/user/" [] (40 * daySec) true []
        ["alice"] (fun _ => [sampleKeyRot1]) (fun _ => oracleSecretB)).logs := by
  have h := C7_secret_never_logged_or_notified false "iam/user/" [] (40 * daySec)
    true [] ["alice"] (fun _ => [sampleKeyRot1])
    (fun _ => oracleSecretA) (fun _ => oracleSecretB) (fun _ => rfl)
  exact h.1

/-- C8: the stop-candidate set contains exactly the running instances whose
running duration strictly exceeds 24 hours (25 hours in, 23 hours out);
when it is nonempty and dry-run is off a single batched stop call is
issued, counting all candidates on success and none on failure. -/
theorem C8_stop_candidates_and_batch (dryRun : Bool) (now : Int) (stopOk : Bool)
    (instances : List Ec2Instance) :
    (∀ i ∈ instances, now - i.launchTime > runningThreshold →
      i.instanceId ∈ stopCandidates now instances) ∧
    (∀ x ∈ stopCandidates now instances, ∃ j ∈ instances,
      j.instanceId = x ∧ now - j.launchTime > runningThreshold) ∧
    (∀ id1 id2 : String, stopCandidates now
        [{ instanceId := id1, launchTime := now - 25 * hourSec },
         { instanceId := id2, launchTime := now - 23 * hourSec }] = [id1]) ∧
    (stopOldEc2Instances dryRun now stopOk instances).stats.instancesToStop =
      (stopCandidates now instances).length ∧
    (stopCandidates now instances ≠ [] →
      (stopOldEc2Instances false now stopOk instances).calls =
        [.stopInstances (stopCandidates now instances)]) ∧
    (stopCandidates now instances ≠ [] →
      (stopOldEc2Instances false now true instances).stats.instancesStopped =
        (stopCandidates now instances).length) ∧
    (stopOldEc2Instances false now false instances).stats.instancesStopped = 0 := by
  refine ⟨?_, ?_, ?_, ?_, ?_, ?_, ?_⟩
  · intro i hi hgt
    unfold stopCandidates
    exact List.mem_map_of_mem _ (List.mem_filter.mpr ⟨hi, by simpa using hgt⟩)
  · intro x hx
    unfold stopCandidates at hx
    obtain ⟨j, hj, rfl⟩ := List.mem_map.mp hx
    obtain ⟨hmem, hcond⟩ := List.mem_filter.mp hj
    exact ⟨j, hmem, rfl, by simpa using hcond⟩
  · intro id1 id2
    simp [stopCandidates, List.filter_cons, runningThreshold, hourSec]
  · exact stopOldEc2Instances_toStop dryRun now stopOk instances
  · intro hne
    exact stopOldEc2Instances_calls now stopOk instances hne
  · intro hne
    exact stopOldEc2Instances_stopped_ok now instances hne
  · exact stopOldEc2Instances_stopped_fail false now instances

/-- C8 witness at a concrete inventory. -/
theorem C8_stop_candidates_and_batch_witness :
    "i-old" ∈ stopCandidates (30 * hourSec)
      [{ instanceId := "i-old", launchTime := 0 }] ∧
    (stopOldEc2Instances false (30 * hourSec) true
      [{ instanceId := "i-old", launchTime := 0 }]).calls =
      [.stopInstances ["i-old"]] := by
  have h := C8_stop_candidates_and_batch false (30 * hourSec) true
    [{ instanceId := "i-old", launchTime := 0 }]
  refine ⟨?_, ?_⟩
  · exact h.1 { instanceId := "i-old", launchTime := 0 } (by simp) (by decide)
  · have h5 := h.2.2.2.2.1 (by decide)
    simpa using h5

/-- C9: publishing a secret first attempts `create_secret` at the
prefix-derived name; the `put_secret_value` fallback is issued exactly when
the secret already exists; and the created key is returned unchanged for
every store outcome (store failures never undo the creation). -/
theorem C9_secret_publisher_create_then_update (pre user : String)
    (ak : AccessKey) (cRes : CreateSecretRes) (pRes : PutSecretRes) :
    (storeAccessKey pre user ak cRes pRes).1.head? =
      some (.createSecret (secretNameFor pre user)
        { userName := user, accessKeyId := ak.accessKeyId,
          secretAccessKey := ak.secretAccessKey, createDate := ak.createDate }) ∧
    ((ApiCall.putSecretValue (secretNameFor pre user)
        { userName := user, accessKeyId := ak.accessKeyId,
          secretAccessKey := ak.secretAccessKey, createDate := ak.createDate } ∈
      (storeAccessKey pre user ak cRes pRes).1) ↔ cRes = .resourceExists) ∧
    (createNewAccessKey pre user (some ak) cRes pRes).1 = some ak := by
  cases cRes <;> cases pRes <;>
    simp [storeAccessKey, createNewAccessKey, secretNameFor]

/-- C10: dry-run is enabled exactly when the DRY_RUN variable is absent or
case-insensitively equal to true; other values such as 1, yes, or a padded
true disable it. -/
theorem C10_dry_run_env_semantics :
    dryRunOf none = true ∧
    (∀ s, dryRunOf (some s) = true ↔ pyLower s = "true") ∧
    dryRunOf (some "TRUE") = true ∧
    dryRunOf (some "1") = false ∧
    dryRunOf (some "yes") = false ∧
    dryRunOf (some " true") = false := by
  refine ⟨rfl, ?_, ?_, ?_, ?_, ?_⟩
  · intro s
    simp [dryRunOf]
  all_goals decide

end CostControl
